import Mathlib

/-!
Shallow embedding of the PMS-Auto-Updater core (src/tra5_core.py) and proofs
about the claims of its specification.

Conventions of the embedding:
* A spreadsheet cell value is `Option PyVal`: `none` is Python `None`
  (the value openpyxl reports for a blank cell); `PyVal` covers the string
  and integer values the program manipulates.
* Python string operations are modelled character-wise on `List Char`,
  with ASCII case mapping (as in Lean core) and the ASCII whitespace set
  used by `str.strip` / `\s`.
* Fallible Python code (the bare `int(...)` conversion) is modelled with
  `Except String`.
-/

/-- A Python cell value: an integer or a string.  (`tra5_core.py` reads cell
values and applies truthiness tests, `str(...)`, and `int(...)` to them.) -/
inductive PyVal where
  | intV (n : Int)
  | strV (s : String)
deriving DecidableEq, Repr

/-- Python truthiness of a cell value: `0` and `""` are falsy. -/
def pyTruthy : PyVal → Bool
  | .intV n => n != 0
  | .strV s => s != ""

/-- Python `str(...)` applied to a cell value. -/
def pyStr : PyVal → String
  | .intV n => toString n
  | .strV s => s

/-- The whitespace characters recognised by Python `str.strip()` / `\s`
(ASCII range). -/
def isPySpace (c : Char) : Bool :=
  c = ' ' || c = '\t' || c = '\n' || c = '\r' || c = '\x0b' || c = '\x0c'

/-- Python `str.strip()` on a character list: drop whitespace from both ends. -/
def pyStripChars (l : List Char) : List Char :=
  ((l.dropWhile isPySpace).reverse.dropWhile isPySpace).reverse

/-- Python `str.strip()`. -/
def pyStrip (s : String) : String :=
  String.mk (pyStripChars s.data)

/-- The ASCII lower-case table: Python `str.lower()` restricted to the
character set the program's keys use (non-ASCII characters are unaffected). -/
def lowerPairs : List (Char × Char) :=
  [('A','a'), ('B','b'), ('C','c'), ('D','d'), ('E','e'), ('F','f'), ('G','g'),
   ('H','h'), ('I','i'), ('J','j'), ('K','k'), ('L','l'), ('M','m'), ('N','n'),
   ('O','o'), ('P','p'), ('Q','q'), ('R','r'), ('S','s'), ('T','t'), ('U','u'),
   ('V','v'), ('W','w'), ('X','x'), ('Y','y'), ('Z','z')]

/-- ASCII lower-casing of one character. -/
def pyLower (c : Char) : Char :=
  match lowerPairs.find? (fun p => p.1 == c) with
  | some p => p.2
  | none => c

/-- ASCII upper-casing of one character (the reverse table). -/
def pyUpper (c : Char) : Char :=
  match lowerPairs.find? (fun p => p.2 == c) with
  | some p => p.1
  | none => c

/-- The two character replacements of `TextNormalizer.normalize_standard`.
In the source both pattern and replacement are the same codepoint
(U+06CC and U+06A9 on both sides), so the replacement is written here exactly
as in the source, as a character map. -/
def fixYeKe (c : Char) : Char :=
  if c = 'ی' then 'ی' else if c = 'ک' then 'ک' else c

/-- Character pipeline of `TextNormalizer.normalize_standard`:
strip, the (identity) ye/ke replacement, removal of all whitespace
(`re.sub(r"\s+", "", text)`), lower-casing. -/
def normalizeStandardChars (l : List Char) : List Char :=
  (((pyStripChars l).map fixYeKe).filter (fun c => !isPySpace c)).map pyLower

/-- `TextNormalizer.normalize_standard`: `None` is treated as `""`. -/
def normalize_standard (t : Option String) : String :=
  match t with
  | none => ""
  | some s => String.mk (normalizeStandardChars s.data)

/-- Newline / carriage-return replacement with a space (the first step of
`normalize_pnt_axis` and `multiline_to_single`). -/
def nlToSpace (c : Char) : Char :=
  if c = '\n' || c = '\r' then ' ' else c

/-- `TextNormalizer.normalize_pnt_axis`: newlines to spaces, upper-case,
then removal of spaces and hyphens. -/
def normalize_pnt_axis (t : Option String) : String :=
  match t with
  | none => ""
  | some s =>
      String.mk (((s.data.map nlToSpace).map pyUpper).filter
        (fun c => !(c = ' ' || c = '-')))

/-- Splitting on whitespace runs (Python `str.split()` with no argument),
dropping empty words.  `acc` holds the current word reversed. -/
def splitWsGo : List Char → List Char → List (List Char)
  | [], acc => if acc.isEmpty then [] else [acc.reverse]
  | c :: rest, acc =>
      if isPySpace c then
        if acc.isEmpty then splitWsGo rest []
        else acc.reverse :: splitWsGo rest []
      else splitWsGo rest (c :: acc)

/-- Joining words with single spaces (Python `" ".join(...)`). -/
def joinSpace : List (List Char) → List Char
  | [] => []
  | [w] => w
  | w :: w2 :: ws => w ++ ' ' :: joinSpace (w2 :: ws)

/-- `TextNormalizer.multiline_to_single`: newlines to spaces, whitespace
runs collapsed by split/join, final strip. -/
def multiline_to_single (t : Option String) : String :=
  match t with
  | none => ""
  | some s =>
      String.mk (pyStripChars (joinSpace (splitWsGo (s.data.map nlToSpace) [])))

/-- Digit accumulation for Python `int(...)` on a string. -/
def digitsToNatGo : Nat → List Char → Option Nat
  | acc, [] => some acc
  | acc, c :: rest =>
      if c.isDigit then digitsToNatGo (acc * 10 + (c.toNat - 48)) rest
      else none

/-- A non-empty all-digit sequence, or `none`. -/
def digitsToNat : List Char → Option Nat
  | [] => none
  | l => digitsToNatGo 0 l

/-- Python `int(s)` on a string: strip, optional sign, digits; any other
shape raises `ValueError` (here: `none`). -/
def parsePyInt (s : String) : Option Int :=
  match pyStripChars s.data with
  | '+' :: rest => (digitsToNat rest).map Int.ofNat
  | '-' :: rest => (digitsToNat rest).map (fun n => -(n : Int))
  | l => (digitsToNat l).map Int.ofNat

/-- Python `int(v)` on a cell value: identity on integers, parse on strings. -/
def pyInt (v : PyVal) : Option Int :=
  match v with
  | .intV n => some n
  | .strV s => parsePyInt s

/-!  Worksheet model and the hierarchical locator (`PMSHierarchySearcher`). -/

/-- One worksheet row, as the locator reads it: the outline level
(`row_dimensions[i].outlineLevel`, defaulting to 0) and the value of the
configured text column (`None` for a blank cell). -/
structure PMSRow where
  level : Nat
  text : Option String
deriving DecidableEq, Repr

/-- Pair each list element with its 1-based (or `start`-based) row index. -/
def enumFrom : Nat → List α → List (Nat × α)
  | _, [] => []
  | i, a :: rest => (i, a) :: enumFrom (i + 1) rest

/-- Whether `pat` is an initial segment of `s` (helper for the Python `in`
substring test). -/
def startsWithSeq : List Char → List Char → Bool
  | [], _ => true
  | _ :: _, [] => false
  | a :: pat, b :: s => a == b && startsWithSeq pat s

/-- Python `pat in s` on character lists: `pat` occurs contiguously in `s`. -/
def containsSeq : List Char → List Char → Bool
  | pat, [] => pat.isEmpty
  | pat, b :: rest => startsWithSeq pat (b :: rest) || containsSeq pat rest

/-- Whether a row satisfies one `(level, text)` constraint of a hierarchy
path: the text cell is present, the outline level equals the constraint
level, and the constraint text occurs inside the stripped cell text
(`target_text in cell_text`). -/
def constraintMatches (c : Nat × String) (r : PMSRow) : Bool :=
  match r.text with
  | none => false
  | some t => r.level == c.1 && containsSeq c.2.data (pyStripChars t.data)

/-- The row loop of `PMSHierarchySearcher._find_parent_section`.
State: `curIdx` (cursor into the path) and `parentRow` (last matched row).
A row whose text cell is `None` is skipped; a row matching the current
constraint becomes the new anchor and advances the cursor (both folded into
the single `constraintMatches` test, which is false on a `None` cell).
When the cursor has passed the end of the path the scan returns the anchor
together with the current row index; at end of worksheet it returns the
anchor and the row after it, or `none` if the path was not fully matched. -/
def fpsLoop (path : List (Nat × String)) :
    Nat → Option Nat → List (Nat × PMSRow) → Option (Nat × Nat)
  | curIdx, parentRow, [] =>
      if curIdx < path.length then none
      else parentRow.map (fun p => (p, p + 1))
  | curIdx, parentRow, (i, r) :: rest =>
      if curIdx ≥ path.length then parentRow.map (fun p => (p, i))
      else if constraintMatches (path.getD curIdx (0, "")) r then
        fpsLoop path (curIdx + 1) (some i) rest
      else fpsLoop path curIdx parentRow rest

/-- `PMSHierarchySearcher._find_parent_section`: resolve a hierarchy path to
`(parent_row, search_start)`, or `none` when the path cannot be matched. -/
def find_parent_section (ws : List PMSRow) (path : List (Nat × String)) :
    Option (Nat × Nat) :=
  fpsLoop path 0 none (enumFrom 1 ws)

/-- A leaf item collected by Phase B (`{'row':…, 'level':…, 'text':…}`). -/
structure FoundItem where
  row : Nat
  level : Nat
  text : String
deriving DecidableEq, Repr

/-- The row loop of `PMSHierarchySearcher._extract_target_items`: skip rows
with a `None` text cell, stop on a row whose level is ≤ the parent level,
collect rows at the target level. -/
def extractLoop (parentLevel targetLevel : Nat) :
    List (Nat × PMSRow) → List FoundItem
  | [] => []
  | (i, r) :: rest =>
      match r.text with
      | none => extractLoop parentLevel targetLevel rest
      | some t =>
          if r.level ≤ parentLevel then []
          else if r.level = targetLevel then
            ⟨i, r.level, pyStrip t⟩ :: extractLoop parentLevel targetLevel rest
          else extractLoop parentLevel targetLevel rest

/-- Outline level of row `i` (1-based); like `row_dimensions`, absent rows
default to level 0. -/
def levelAt (ws : List PMSRow) (i : Nat) : Nat :=
  (ws.getD (i - 1) ⟨0, none⟩).level

/-- `PMSHierarchySearcher._extract_target_items`: walk rows from
`startRow` to the end of the worksheet. -/
def extractTargetItems (ws : List PMSRow) (parentRow startRow targetLevel : Nat) :
    List FoundItem :=
  extractLoop (levelAt ws parentRow) targetLevel
    ((enumFrom 1 ws).drop (startRow - 1))

/-- `PMSHierarchySearcher.find_items`: Phase A then Phase B. -/
def find_items (ws : List PMSRow) (path : List (Nat × String))
    (targetLevel : Nat) : List FoundItem :=
  match find_parent_section ws path with
  | none => []
  | some (p, s) => extractTargetItems ws p s targetLevel

/-- The row loop of `PMSHierarchySearcher.find_last_level5_in_section`: it
reads only outline levels (never the text cell), stops on a row whose level
is ≤ the section level, and remembers the last row seen at the target
level. -/
def findLastLoop (sectionLevel targetLevel : Nat) :
    List (Nat × PMSRow) → Option Nat
  | [] => none
  | (i, r) :: rest =>
      if r.level ≤ sectionLevel then none
      else if r.level = targetLevel then
        match findLastLoop sectionLevel targetLevel rest with
        | some j => some j
        | none => some i
      else findLastLoop sectionLevel targetLevel rest

/-- `find_last_level5_in_section` after Phase A, for an arbitrary path:
resolve the path, then run the level-only scan for the last target row. -/
def findLastPath (ws : List PMSRow) (path : List (Nat × String))
    (targetLevel : Nat) : Option Nat :=
  match find_parent_section ws path with
  | none => none
  | some (p, s) =>
      findLastLoop (levelAt ws p) targetLevel ((enumFrom 1 ws).drop (s - 1))

/-- The hierarchy configuration (`PMSConfig._HierarchyConfig`). -/
structure HierarchyConfig where
  level1Pat : String
  level3Text : String
  level4Text : String
  targetLevel : Nat
deriving DecidableEq, Repr

/-- `_HierarchyConfig.get_search_path`. -/
def getSearchPath (hc : HierarchyConfig) (mohorNum : Nat) :
    List (Nat × String) :=
  [(1, hc.level1Pat ++ " " ++ toString mohorNum),
   (3, hc.level3Text),
   (4, hc.level4Text)]

/-- `PMSHierarchySearcher.find_last_level5_in_section` for one axis. -/
def find_last_level5_in_section (hc : HierarchyConfig) (ws : List PMSRow)
    (mohorNum : Nat) : Option Nat :=
  findLastPath ws (getSearchPath hc mohorNum) hc.targetLevel

/-!  Axis extraction (`AxisExtractor`). -/

/-- One candidate column of `AxisExtractor._search_pattern`: a falsy cell is
skipped; otherwise the normalised cell text is searched for `prefix + n`
with `n` ascending over `[start, fin)` (`range(AXIS_RANGE_START,
AXIS_RANGE_END)`). -/
def axisCellMatch (pfx : String) (start fin : Nat) (cell : Option PyVal) :
    Option Nat :=
  match cell with
  | none => none
  | some v =>
      if pyTruthy v then
        (List.range' start (fin - start)).find? (fun n =>
          containsSeq (pfx ++ toString n).data
            (normalize_pnt_axis (some (pyStr v))).data)
      else none

/-- `AxisExtractor._search_pattern`: first match over the candidate columns
in declared order. -/
def searchPatternCells (cells : List (Option PyVal)) (pfx : String)
    (start fin : Nat) : Option Nat :=
  match cells with
  | [] => none
  | c :: rest =>
      match axisCellMatch pfx start fin c with
      | some m => some m
      | none => searchPatternCells rest pfx start fin

/-- `AxisExtractor.extract_from_row`: the `"AXIS"` pass, then — if it
produced `None` or the falsy axis `0` (`if mohor:` in the source) — the
`"S"` pass over the same columns. -/
def extract_from_row (cells : List (Option PyVal)) (start fin : Nat) :
    Option Nat :=
  match searchPatternCells cells "AXIS" start fin with
  | some m => if m ≠ 0 then some m else searchPatternCells cells "S" start fin
  | none => searchPatternCells cells "S" start fin

/-!  Source item extraction (`PNTItemExtractor`). -/

/-- One source row, as `_extract_row_data` reads it: the item-text cell,
the axis-search candidate cells (in the configured column order), the
quantity cell and the auxiliary (M) value cell. -/
structure PNTRow where
  item : Option PyVal
  axisCells : List (Option PyVal)
  quantity : Option PyVal
  mValue : Option PyVal
deriving DecidableEq, Repr

/-- The per-row record built by `_extract_row_data`. -/
structure ItemData where
  pnt_row : Nat
  quantity : Int
  m_value : Option PyVal
  original : String
  single_line : String
  normalized : String
  axis : Option Nat
deriving DecidableEq, Repr

/-- `int(quantity) if quantity else 0`: a missing or falsy cell gives 0; a
truthy cell goes through Python `int(...)`, which raises `ValueError` on a
non-numeric string. -/
def readQuantity (q : Option PyVal) : Except String Int :=
  match q with
  | none => .ok 0
  | some v =>
      if pyTruthy v then
        match pyInt v with
        | some n => .ok n
        | none => .error "ValueError"
      else .ok 0

/-- `PNTItemExtractor._extract_row_data`: `ok none` models the Python
`return None` (row skipped), `error` models an uncaught `ValueError` from
the quantity conversion. -/
def extractRowData (axStart axEnd : Nat) (rowIdx : Nat) (r : PNTRow) :
    Except String (Option ItemData) :=
  match r.item with
  | none => .ok none
  | some v =>
      if pyTruthy v then
        let axisNum := extract_from_row r.axisCells axStart axEnd
        let original := pyStrip (pyStr v)
        let single := multiline_to_single (some original)
        let normalized := normalize_standard (some single)
        if normalized = "" then .ok none
        else
          match readQuantity r.quantity with
          | .error e => .error e
          | .ok q => .ok (some ⟨rowIdx, q, r.mValue, original, single,
              normalized, axisNum⟩)
      else .ok none

/-- An entry of the unidentified list (`{'row': …, 'item': …}`). -/
structure UnidEntry where
  row : Nat
  item : String
deriving DecidableEq, Repr

/-- Append an item to its axis group, creating the group at the end on
first use (Python dict insertion order with per-key list append). -/
def addToGroup (groups : List (Nat × List ItemData)) (axis : Nat)
    (d : ItemData) : List (Nat × List ItemData) :=
  match groups with
  | [] => [(axis, [d])]
  | (a, l) :: rest =>
      if a = axis then (a, l ++ [d]) :: rest
      else (a, l) :: addToGroup rest axis d

/-- The items recorded for one axis in the grouped result. -/
def groupItems (groups : List (Nat × List ItemData)) (axis : Nat) :
    List ItemData :=
  match groups.find? (fun p => p.1 == axis) with
  | some p => p.2
  | none => []

/-- The row loop of `PNTItemExtractor.extract_all_items`: classify each row
into its axis group or the unidentified list, or skip it. -/
def extractAllLoop (axStart axEnd : Nat) :
    List (Nat × PNTRow) → List (Nat × List ItemData) → List UnidEntry →
    Except String (List (Nat × List ItemData) × List UnidEntry)
  | [], groups, unid => .ok (groups, unid)
  | (i, r) :: rest, groups, unid =>
      match extractRowData axStart axEnd i r with
      | .error e => .error e
      | .ok none => extractAllLoop axStart axEnd rest groups unid
      | .ok (some d) =>
          match d.axis with
          | none =>
              extractAllLoop axStart axEnd rest groups
                (unid ++ [⟨i, d.single_line⟩])
          | some a =>
              extractAllLoop axStart axEnd rest (addToGroup groups a d) unid

/-- `PNTItemExtractor.extract_all_items` over the configured row range
(`range(ROW_START, ROW_END)`): `rows` lists the rows of that range in
order, `rowStart` is the index of the first one. -/
def extractAllItems (axStart axEnd rowStart : Nat) (rows : List PNTRow) :
    Except String (List (Nat × List ItemData) × List UnidEntry) :=
  extractAllLoop axStart axEnd (enumFrom rowStart rows) [] []

/-!  Update planning (`UpdatePlanner`). -/

/-- One location stored in the structure index
(`{'mohor': …, 'row': …, 'level': …, 'original_text': …}`). -/
structure Location where
  mohor : String
  row : Nat
  level : Nat
  original_text : String
deriving DecidableEq, Repr

/-- Dictionary lookup in the structure index: the location list for a
normalized key, `[]` when the key is absent. -/
def lookupLocs (d : List (String × List Location)) (k : String) :
    List Location :=
  match d.find? (fun p => p.1 == k) with
  | some p => p.2
  | none => []

/-- A deficit warning (`{'item', 'mohor', 'needed', 'available',
'deficit'}`). -/
structure DeficitWarning where
  item : String
  mohor : String
  needed : Int
  available : Nat
  deficit : Int
deriving DecidableEq, Repr

/-- An update-plan entry.  `g_value = none` models the `'g_value'` key
being absent from the Python dict (existing items); `g_value = some v`
models its presence with value `v` (new items). -/
structure UpdateEntry where
  mohor : String
  item_text : String
  existing_rows : List Nat
  needed_quantity : Int
  a_value : String
  e_value : String
  n_value : Option PyVal
  g_value : Option (Option PyVal)
  is_new_item : Bool
deriving DecidableEq, Repr

/-- A not-found record (`{'item', 'mohor', 'reason'}`). -/
structure NotFoundErr where
  item : String
  mohor : String
  reason : String
deriving DecidableEq, Repr

/-- The three outcomes of `UpdatePlanner._match_item`. -/
inductive MatchResult where
  | existing (u : UpdateEntry) (w : Option DeficitWarning)
  | newItem (u : UpdateEntry)
  | notFound (e : NotFoundErr)
deriving DecidableEq, Repr

/-- `UpdatePlanner._create_existing_update`: the update entry plus the
optional deficit warning. -/
def createExistingUpdate (mohorName : String) (pnt : ItemData)
    (locations : List Location) (g2 : String) :
    UpdateEntry × Option DeficitWarning :=
  let neededQuantity := pnt.quantity
  let currentQuantity := locations.length
  let update : UpdateEntry :=
    { mohor := mohorName
      item_text := pnt.single_line
      existing_rows := locations.map Location.row
      needed_quantity := neededQuantity
      a_value := pnt.single_line
      e_value := g2
      n_value := pnt.m_value
      g_value := none
      is_new_item := false }
  if (currentQuantity : Int) < neededQuantity then
    (update, some ⟨pnt.single_line, mohorName, neededQuantity,
      currentQuantity, neededQuantity - currentQuantity⟩)
  else (update, none)

/-- The reason string of an unresolvable item. -/
def notFoundReason : String := "محور یا Level 5 در PMS یافت نشد"

/-- `UpdatePlanner._create_new_update`: find the last target-level row of
the axis section; a found (truthy) row anchors a new-item entry, otherwise
the item is unresolvable.  (`if last_level5:` is falsy for `None` and for
row 0.) -/
def createNewUpdate (hc : HierarchyConfig) (pmsWs : List PMSRow)
    (mohorName : String) (mohorNum : Nat) (pnt : ItemData) (g2 : String) :
    MatchResult :=
  match find_last_level5_in_section hc pmsWs mohorNum with
  | some r =>
      if r ≠ 0 then
        .newItem
          { mohor := mohorName
            item_text := "🆕 " ++ pnt.single_line
            existing_rows := [r]
            needed_quantity := pnt.quantity
            a_value := pnt.single_line
            e_value := g2
            n_value := pnt.m_value
            g_value := some pnt.m_value
            is_new_item := true }
      else .notFound ⟨pnt.single_line, mohorName, notFoundReason⟩
  | none => .notFound ⟨pnt.single_line, mohorName, notFoundReason⟩

/-- `UpdatePlanner._match_item`: existing locations of the same axis win;
otherwise a new-item insertion is attempted. -/
def matchItem (hc : HierarchyConfig) (pmsWs : List PMSRow)
    (mohorName : String) (mohorNum : Nat) (pnt : ItemData)
    (itemLocations : List (String × List Location)) (g2 : String) :
    MatchResult :=
  let mohorLocations :=
    (lookupLocs itemLocations pnt.normalized).filter
      (fun loc => loc.mohor == mohorName)
  if mohorLocations.isEmpty then
    createNewUpdate hc pmsWs mohorName mohorNum pnt g2
  else
    let eu := createExistingUpdate mohorName pnt mohorLocations g2
    .existing eu.1 eu.2

/-- The per-item loop of `UpdatePlanner.plan_updates` for one axis:
accumulate updates, not-found records and warnings in iteration order. -/
def planItems (hc : HierarchyConfig) (pmsWs : List PMSRow)
    (itemLocations : List (String × List Location)) (g2 : String)
    (mohorName : String) (mohorNum : Nat) :
    List ItemData → List UpdateEntry × List NotFoundErr × List DeficitWarning
  | [] => ([], [], [])
  | d :: rest =>
      let r := planItems hc pmsWs itemLocations g2 mohorName mohorNum rest
      match matchItem hc pmsWs mohorName mohorNum d itemLocations g2 with
      | .existing u w =>
          (u :: r.1, r.2.1, match w with
            | some w0 => w0 :: r.2.2
            | none => r.2.2)
      | .newItem u => (u :: r.1, r.2.1, r.2.2)
      | .notFound e => (r.1, e :: r.2.1, r.2.2)

/-- `UpdatePlanner.plan_updates`: iterate the axis groups in order; the
axis name is built as in the source (`f"محور {mohor_num}"`). -/
def planUpdates (hc : HierarchyConfig) (pmsWs : List PMSRow)
    (itemLocations : List (String × List Location))
    (itemsByAxis : List (Nat × List ItemData)) (g2 : String) :
    List UpdateEntry × List NotFoundErr × List DeficitWarning :=
  match itemsByAxis with
  | [] => ([], [], [])
  | (num, items) :: rest =>
      let a := planItems hc pmsWs itemLocations g2
        ("محور " ++ toString num) num items
      let b := planUpdates hc pmsWs itemLocations rest g2
      (a.1 ++ b.1, a.2.1 ++ b.2.1, a.2.2 ++ b.2.2)

/-!  Helper lemmas about the character pipeline. -/

/-- The lower-case table maps into non-whitespace characters. -/
theorem lowerPairs_snd_space : ∀ p ∈ lowerPairs, isPySpace p.2 = false := by
  decide

/-- Lower-case letters are not in the domain of the lower-case table. -/
theorem lowerPairs_snd_find :
    ∀ p ∈ lowerPairs, lowerPairs.find? (fun q => q.1 == p.2) = none := by
  decide

/-- The ye/ke replacement of the source is the identity map (both sides of
each `replace` are the same codepoint). -/
theorem fixYeKe_id (c : Char) : fixYeKe c = c := by
  unfold fixYeKe
  split
  · next h => exact h.symm
  · split
    · next h => exact h.symm
    · rfl

/-- Lower-casing cannot produce a whitespace character from a
non-whitespace one. -/
theorem pyLower_space (c : Char) (h : isPySpace c = false) :
    isPySpace (pyLower c) = false := by
  unfold pyLower
  cases hf : lowerPairs.find? (fun p => p.1 == c) with
  | none => exact h
  | some p => exact lowerPairs_snd_space p (List.mem_of_find?_eq_some hf)

/-- Lower-casing is idempotent. -/
theorem pyLower_idem (c : Char) : pyLower (pyLower c) = pyLower c := by
  cases hf : lowerPairs.find? (fun p => p.1 == c) with
  | none => simp [pyLower, hf]
  | some p =>
      have h2 := lowerPairs_snd_find p (List.mem_of_find?_eq_some hf)
      simp [pyLower, hf, h2]

/-- `dropWhile` is the identity when no element satisfies the predicate. -/
theorem dropWhile_eq_self_of (p : α → Bool) (l : List α)
    (h : ∀ a ∈ l, p a = false) : l.dropWhile p = l := by
  cases l with
  | nil => rfl
  | cons a rest =>
      rw [List.dropWhile_cons]
      simp [h a (by simp)]

/-- Stripping is the identity on whitespace-free lists. -/
theorem pyStripChars_eq_self (l : List Char)
    (h : ∀ c ∈ l, isPySpace c = false) : pyStripChars l = l := by
  unfold pyStripChars
  rw [dropWhile_eq_self_of _ _ h, dropWhile_eq_self_of, List.reverse_reverse]
  intro a ha
  exact h a (by simpa using ha)

/-- `map` is the identity when the function fixes every element. -/
theorem map_eq_self_of (f : α → α) (l : List α) (h : ∀ a ∈ l, f a = a) :
    l.map f = l := by
  induction l with
  | nil => rfl
  | cons a rest ih =>
      simp only [List.map_cons, h a (by simp)]
      rw [ih (fun b hb => h b (by simp [hb]))]

/-- Every character of a normalised key is non-whitespace and already
lower-case. -/
theorem normalizeStandardChars_mem (l : List Char) :
    ∀ c ∈ normalizeStandardChars l, isPySpace c = false ∧ pyLower c = c := by
  intro c hc
  unfold normalizeStandardChars at hc
  rcases List.mem_map.1 hc with ⟨d, hd, rfl⟩
  have hds : isPySpace d = false := by
    have := (List.mem_filter.1 hd).2
    simpa using this
  exact ⟨pyLower_space d hds, pyLower_idem d⟩

/-- The character pipeline of `normalize_standard` is idempotent. -/
theorem normalizeStandardChars_idem (l : List Char) :
    normalizeStandardChars (normalizeStandardChars l) =
      normalizeStandardChars l := by
  have hm := normalizeStandardChars_mem l
  conv_lhs => rw [normalizeStandardChars]
  rw [pyStripChars_eq_self _ (fun c hc => (hm c hc).1)]
  rw [map_eq_self_of fixYeKe _ (fun c _ => fixYeKe_id c)]
  rw [List.filter_eq_self.mpr (fun c hc => by simp [(hm c hc).1])]
  exact map_eq_self_of pyLower _ (fun c hc => (hm c hc).2)

/-- Claim C8: the key-normalisation function is idempotent — for every text
`x`, `normalize_key (normalize_key x) = normalize_key x`
(`TextNormalizer.normalize_standard` in the source). -/
theorem normalize_standard_idempotent (s : String) :
    normalize_standard (some (normalize_standard (some s))) =
      normalize_standard (some s) := by
  show String.mk (normalizeStandardChars
      (String.mk (normalizeStandardChars s.data)).data) =
    String.mk (normalizeStandardChars s.data)
  rw [show (String.mk (normalizeStandardChars s.data)).data =
      normalizeStandardChars s.data from rfl]
  rw [normalizeStandardChars_idem]

/-!  Claim C3: span boundary of Phase B. -/

/-- The collecting function of Phase B: a present text cell at the target
level yields an item, anything else yields nothing. -/
def phaseBCollect (targetLevel : Nat) (p : Nat × PMSRow) : Option FoundItem :=
  match p.2.text with
  | some t =>
      if p.2.level = targetLevel then some ⟨p.1, p.2.level, pyStrip t⟩
      else none
  | none => none

/-- The boundary predicate of Phase B: the scan continues exactly while the
row does NOT have both a present text cell and an outline level ≤ the
anchor level. -/
def phaseBKeep (parentLevel : Nat) (p : Nat × PMSRow) : Bool :=
  !(p.2.text.isSome && decide (p.2.level ≤ parentLevel))

/-- The Phase B loop equals: keep rows up to (excluding) the first row with
a present text cell at level ≤ the anchor level, then collect the
target-level rows with present text, in order. -/
theorem extractLoop_eq (pl tl : Nat) (l : List (Nat × PMSRow)) :
    extractLoop pl tl l =
      (l.takeWhile (phaseBKeep pl)).filterMap (phaseBCollect tl) := by
  induction l with
  | nil => rfl
  | cons p rest ih =>
      obtain ⟨i, r⟩ := p
      cases ht : r.text with
      | none =>
          simp [extractLoop, List.takeWhile_cons, List.filterMap_cons,
            phaseBKeep, phaseBCollect, ht, ih]
      | some t =>
          by_cases h1 : r.level ≤ pl
          · simp [extractLoop, List.takeWhile_cons, phaseBKeep, ht, h1]
          · by_cases h2 : r.level = tl
            · have h3 : pl < r.level := Nat.lt_of_not_le h1
              simp [extractLoop, List.takeWhile_cons, List.filterMap_cons,
                phaseBKeep, phaseBCollect, ht, h1, h2, h2 ▸ h1, h2 ▸ h3, ih]
            · simp [extractLoop, List.takeWhile_cons, List.filterMap_cons,
                phaseBKeep, phaseBCollect, ht, h1, h2, ih]

/-- Claim C3: in Phase B (`_extract_target_items`), the scan stops at the
first row whose text cell is present (non-blank) and whose outline level is
≤ the anchor's outline level — target-level rows beyond that row are not
collected; a row whose text cell is blank (`None`) is skipped entirely and
never terminates the scan (`phaseBKeep` is `true` on it regardless of its
outline level); the rows collected are exactly the present-text rows at the
configured target level before that boundary, in row order. -/
theorem extractTargetItems_span (ws : List PMSRow)
    (parentRow startRow targetLevel : Nat) :
    extractTargetItems ws parentRow startRow targetLevel =
      (((enumFrom 1 ws).drop (startRow - 1)).takeWhile
          (phaseBKeep (levelAt ws parentRow))).filterMap
        (phaseBCollect targetLevel) := by
  unfold extractTargetItems
  exact extractLoop_eq _ _ _

/-!  Lemmas about `enumFrom` and the scan loops. -/

/-- The payload of an enumerated pair is a member of the original list. -/
theorem enumFrom_snd_mem (i : Nat) (l : List α) (p : Nat × α)
    (h : p ∈ enumFrom i l) : p.2 ∈ l := by
  induction l generalizing i with
  | nil => cases h
  | cons a rest ih =>
      rcases List.mem_cons.mp h with h | h
      · simp [h]
      · exact List.mem_cons_of_mem _ (ih (i + 1) h)

/-- Enumerated indices are bounded below by the start index. -/
theorem enumFrom_fst_ge (i : Nat) (l : List α) (p : Nat × α)
    (h : p ∈ enumFrom i l) : i ≤ p.1 := by
  induction l generalizing i with
  | nil => cases h
  | cons a rest ih =>
      rcases List.mem_cons.mp h with h | h
      · simp [h]
      · exact Nat.le_of_succ_le (ih (i + 1) h)

/-- A row index returned by the `find_last_level5_in_section` loop comes
from the scanned list. -/
theorem findLastLoop_mem (pl tl : Nat) (l : List (Nat × PMSRow)) (m : Nat)
    (h : findLastLoop pl tl l = some m) : ∃ p ∈ l, p.1 = m := by
  induction l with
  | nil => exact absurd h (by simp [findLastLoop])
  | cons p rest ih =>
      obtain ⟨i, r⟩ := p
      rw [findLastLoop] at h
      by_cases h1 : r.level ≤ pl
      · rw [if_pos h1] at h
        cases h
      · rw [if_neg h1] at h
        by_cases h2 : r.level = tl
        · rw [if_pos h2] at h
          cases hrec : findLastLoop pl tl rest with
          | some j =>
              rw [hrec] at h
              simp at h
              obtain ⟨q, hq, hq2⟩ := ih (hrec.trans (by rw [h]))
              exact ⟨q, List.mem_cons_of_mem _ hq, hq2⟩
          | none =>
              rw [hrec] at h
              simp at h
              exact ⟨(i, r), by simp, h⟩
        · rw [if_neg h2] at h
          obtain ⟨q, hq, hq2⟩ := ih h
          exact ⟨q, List.mem_cons_of_mem _ hq, hq2⟩

/-- A row found by `find_last_level5_in_section` is a real (positive) row
index, so the `if last_level5:` truthiness test in `_create_new_update`
cannot confuse it with `None`. -/
theorem find_last_level5_pos (hc : HierarchyConfig) (ws : List PMSRow)
    (n r : Nat) (h : find_last_level5_in_section hc ws n = some r) :
    1 ≤ r := by
  unfold find_last_level5_in_section findLastPath at h
  cases hfp : find_parent_section ws (getSearchPath hc n) with
  | none => rw [hfp] at h; cases h
  | some ps =>
      rw [hfp] at h
      obtain ⟨q, hq, hq2⟩ := findLastLoop_mem _ _ _ _ h
      have := enumFrom_fst_ge 1 ws q (List.drop_subset _ _ hq)
      omega

/-!  Claim C2: the two Phase B walks. -/

/-- On a span in which every row has a present text cell, the level-only
loop of `find_last_level5_in_section` returns exactly the row index of the
last item collected by `_extract_target_items`. -/
theorem findLastLoop_eq_getLast (pl tl : Nat) (l : List (Nat × PMSRow))
    (h : ∀ p ∈ l, p.2.text.isSome = true) :
    findLastLoop pl tl l = ((extractLoop pl tl l).getLast?).map FoundItem.row := by
  induction l with
  | nil => rfl
  | cons p rest ih =>
      obtain ⟨i, r⟩ := p
      obtain ⟨t, ht⟩ : ∃ t, r.text = some t := by
      -- a present text cell holds some string
        have hs := h (i, r) (by simp)
        cases hr : r.text
        · rw [hr] at hs; cases hs
        · exact ⟨_, rfl⟩
      have ihh := ih (fun q hq => h q (List.mem_cons_of_mem _ hq))
      by_cases h1 : r.level ≤ pl
      · simp [findLastLoop, extractLoop, ht, h1]
      · by_cases h2 : r.level = tl
        · have h1t : ¬ tl ≤ pl := h2 ▸ h1
          cases hrec : extractLoop pl tl rest with
          | nil =>
              rw [hrec] at ihh
              simp only [List.getLast?_nil, Option.map_none'] at ihh
              simp [findLastLoop, extractLoop, ht, h1, h2, h1t, ihh, hrec]
          | cons x xs =>
              rw [hrec] at ihh
              obtain ⟨y, hy⟩ : ∃ y, (x :: xs).getLast? = some y :=
                Option.isSome_iff_exists.mp
                  (List.getLast?_isSome.mpr (by simp))
              rw [hy] at ihh
              simp [findLastLoop, extractLoop, ht, h1, h2, h1t, ihh, hrec,
                List.getLast?_cons_cons, hy]
        · simp only [findLastLoop, extractLoop, ht, if_neg h1, if_neg h2]
          exact ihh

/-- Claim C2 (amended): when every row of the worksheet has a present text
cell, `find_last_level5_in_section`'s walk agrees with Phase B — it returns
the row index of the last leaf `find_items` collects for the same resolved
path, and `none` exactly when that list is empty.  (Without the hypothesis
the two walks differ: the level-only walk treats blank rows as boundary
candidates and counts blank target-level rows; see the counterexample.) -/
theorem findLastPath_agrees_find_items (ws : List PMSRow)
    (path : List (Nat × String)) (tl : Nat)
    (h : ∀ r ∈ ws, r.text.isSome = true) :
    findLastPath ws path tl =
      ((find_items ws path tl).getLast?).map FoundItem.row := by
  unfold findLastPath find_items
  cases hfp : find_parent_section ws path with
  | none => rfl
  | some ps =>
      obtain ⟨p, s⟩ := ps
      unfold extractTargetItems
      exact findLastLoop_eq_getLast _ _ _
        (fun q hq =>
          h q.2 (enumFrom_snd_mem 1 ws q (List.drop_subset _ _ hq)))

/-- A worksheet (with every text cell present) on which the agreement of
the two Phase B walks is witnessed concretely. -/
def c2FullDoc : List PMSRow :=
  [⟨1, some "A 7"⟩, ⟨3, some "B"⟩, ⟨4, some "C"⟩,
   ⟨5, some "x"⟩, ⟨5, some "y"⟩, ⟨1, some "done"⟩]

/-- Witness for the amended Claim C2 at a concrete worksheet: both walks
find row 5 (the last of the two level-5 leaves). -/
theorem findLastPath_agrees_find_items_witness :
    findLastPath c2FullDoc [(1, "A 7"), (3, "B"), (4, "C")] 5 =
      ((find_items c2FullDoc [(1, "A 7"), (3, "B"), (4, "C")] 5).getLast?).map
        FoundItem.row :=
  findLastPath_agrees_find_items c2FullDoc [(1, "A 7"), (3, "B"), (4, "C")] 5
    (by decide)

/-- The worksheet refuting Claim C2 as stated: the path resolves at row 3
(level 4); row 4 is fully blank at outline level 0; row 5 is a level-5 leaf
with text. -/
def c2BlankDoc : List PMSRow :=
  [⟨1, some "A 7"⟩, ⟨3, some "B"⟩, ⟨4, some "C"⟩, ⟨0, none⟩, ⟨5, some "x"⟩]

/-- The hierarchy configuration used in the Claim C2 counterexample. -/
def c2Hc : HierarchyConfig := ⟨"A", "B", "C", 5⟩

/-- Claim C2 counterexample: on `c2BlankDoc` (axis 7), Phase B enumeration
collects the leaf at row 5, so the claim says `find_last_level5_in_section`
must return row 5 — but the level-only walk stops at the blank row 4
(outline level 0 ≤ anchor level 4, text never read) and returns `none`.
The two Phase B walks do not agree. -/
theorem find_last_level5_disagrees :
    find_last_level5_in_section c2Hc c2BlankDoc 7 = none ∧
      ((find_items c2BlankDoc (getSearchPath c2Hc 7)
          c2Hc.targetLevel).getLast?).map FoundItem.row = some 5 := by
  decide

/-!  Claim C1: tie-break policy of Phase A. -/

/-- A worksheet with two level-1 sections matching the same pattern text
"A": the first at row 1 (followed by its level-3/level-4 rows 2 and 3), the
second at row 4 (followed by its level-3/level-4 rows 5 and 6). -/
def c1Doc : List PMSRow :=
  [⟨1, some "A"⟩, ⟨3, some "B"⟩, ⟨4, some "C"⟩,
   ⟨1, some "A"⟩, ⟨3, some "B"⟩, ⟨4, some "C"⟩]

/-- The three-constraint path used against `c1Doc`. -/
def c1Path : List (Nat × String) := [(1, "A"), (3, "B"), (4, "C")]

/-- Claim C1 counterexample: with two level-1 sections matching the same
pattern text, the claim requires the locator to anchor on the SECOND
level-1 row (row 4) before resolving the level-3/level-4 constraints, which
would resolve the path in the second section at rows 5 and 6 and return
`(6, 7)`.  The code instead advances the cursor at the FIRST match of each
constraint: it anchors at row 1 and resolves rows 2 and 3, returning
`(3, 4)`. -/
theorem find_parent_section_first_match_refutes :
    find_parent_section c1Doc c1Path = some (3, 4) ∧
      find_parent_section c1Doc c1Path ≠ some (6, 7) := by
  decide

/-- Claim C1 (amended): among rows satisfying the current constraint, the
FIRST matching row becomes the anchor for that constraint and the cursor
advances immediately — rows before it that do not match are skipped without
changing the state, and the scan of the current constraint never looks past
its first match.  Stated over the Phase A loop: if no row of `l₁` matches
constraint `k` of the path and `r` does, the scan of `l₁ ++ (i, r) :: l₂`
continues from `l₂` with anchor `i` and cursor `k + 1`. -/
theorem fpsLoop_first_match (path : List (Nat × String)) (k : Nat)
    (parent : Option Nat) (l₁ l₂ : List (Nat × PMSRow)) (i : Nat)
    (r : PMSRow) (hk : k < path.length)
    (hpre : ∀ p ∈ l₁, constraintMatches (path.getD k (0, "")) p.2 = false)
    (hr : constraintMatches (path.getD k (0, "")) r = true) :
    fpsLoop path k parent (l₁ ++ (i, r) :: l₂) =
      fpsLoop path (k + 1) (some i) l₂ := by
  induction l₁ generalizing parent with
  | nil =>
      rw [List.nil_append, fpsLoop, if_neg (Nat.not_le.mpr hk), if_pos hr]
  | cons q rest ih =>
      have hq := hpre q (List.mem_cons_self q rest)
      obtain ⟨j, s⟩ := q
      have hq2 : constraintMatches (path.getD k (0, "")) s = false := hq
      rw [List.cons_append, fpsLoop, if_neg (Nat.not_le.mpr hk),
        if_neg (by rw [hq2]; exact Bool.false_ne_true)]
      exact ih parent (fun p hp => hpre p (List.mem_cons_of_mem _ hp))

/-- Witness for the amended Claim C1 at a concrete input: the non-matching
row `(1, level 2 "zz")` is skipped, the first matching row `(2, level 1
"A")` anchors constraint 0 and the cursor advances. -/
theorem fpsLoop_first_match_witness :
    fpsLoop c1Path 0 none
        ([(1, (⟨2, some "zz"⟩ : PMSRow))] ++ (2, (⟨1, some "A"⟩ : PMSRow)) :: []) =
      fpsLoop c1Path 1 (some 2) [] :=
  fpsLoop_first_match c1Path 0 none _ _ 2 _ (by decide) (by decide) (by decide)

/-!  Claim C4: quantity and auxiliary-value reading. -/

/-- A source row whose quantity cell holds the non-numeric text `"N/A"`;
its item text is non-empty and its axis resolves to 19. -/
def c4Row : PNTRow :=
  ⟨some (.strV "Pipe support"), [some (.strV "AXIS19")],
    some (.strV "N/A"), some (.strV "aux")⟩

/-- Claim C4 counterexample: the claim says reading the quantity cell is
total (a missing or non-numeric value yields 0 and the extraction never
raises), but `int(quantity) if quantity else 0` raises `ValueError` on a
truthy non-numeric cell: on `c4Row` the whole row extraction aborts with
the error instead of producing quantity 0. -/
theorem extractRowData_nonnumeric_raises :
    extractRowData 19 46 7 c4Row = Except.error "ValueError" := by
  rfl

/-- Claim C4 (amended): a missing or falsy quantity cell (absent, `0` or
`""`) yields quantity 0; an integer-valued cell yields that integer; a
truthy non-numeric string raises `ValueError` (quantity reading is not
total); and whenever a row is extracted, its auxiliary value cell is passed
through verbatim and its stored quantity is the successfully-read one. -/
theorem readQuantity_behaviour :
    (readQuantity none = Except.ok 0)
    ∧ (∀ n : Int, readQuantity (some (PyVal.intV n)) = Except.ok n)
    ∧ (∀ s : String, s ≠ "" → parsePyInt s = none →
        readQuantity (some (PyVal.strV s)) = Except.error "ValueError")
    ∧ (∀ axS axE i r d, extractRowData axS axE i r = Except.ok (some d) →
        d.m_value = r.mValue ∧ readQuantity r.quantity = Except.ok d.quantity) := by
  refine ⟨rfl, ?_, ?_, ?_⟩
  · intro n
    by_cases hn : n = 0
    · subst hn; rfl
    · simp [readQuantity, pyTruthy, pyInt, hn]
  · intro s hs hp
    simp [readQuantity, pyTruthy, pyInt, hs, hp]
  · intro axS axE i r d h
    obtain ⟨item, axCells, qty, mv⟩ := r
    cases item with
    | none => exact absurd h (by simp [extractRowData])
    | some v =>
        simp only [extractRowData] at h
        by_cases htr : pyTruthy v = true
        · rw [if_pos htr] at h
          by_cases hnz : normalize_standard
              (some (multiline_to_single (some (pyStrip (pyStr v))))) = ""
          · rw [if_pos hnz] at h
            exact absurd h (by simp)
          · rw [if_neg hnz] at h
            cases hrq : readQuantity qty with
            | error e => rw [hrq] at h; exact absurd h (by simp)
            | ok q =>
                rw [hrq] at h
                simp only [Except.ok.injEq, Option.some.injEq] at h
                subst h
                exact ⟨rfl, rfl⟩
        · rw [if_neg htr] at h
          exact absurd h (by simp)

/-- Witness for the amended Claim C4: `"N/A"` is truthy and non-numeric,
so the quantity read raises. -/
theorem readQuantity_behaviour_witness :
    readQuantity (some (PyVal.strV "N/A")) = Except.error "ValueError" :=
  readQuantity_behaviour.2.2.1 "N/A" (by decide) (by rfl)

/-!  Claim C5: axis-extraction priority. -/

/-- Any axis number produced by one candidate cell lies in the configured
range `[start, fin)`. -/
theorem axisCellMatch_range (pfx : String) (s f : Nat)
    (cell : Option PyVal) (m : Nat)
    (h : axisCellMatch pfx s f cell = some m) : s ≤ m ∧ m < f := by
  unfold axisCellMatch at h
  split at h
  · cases h
  · split at h
    · have hm := List.mem_range'_1.mp (List.mem_of_find?_eq_some h)
      omega
    · cases h

/-- Any axis number produced by a `_search_pattern` pass lies in the
configured range. -/
theorem searchPatternCells_range (cells : List (Option PyVal))
    (pfx : String) (s f m : Nat)
    (h : searchPatternCells cells pfx s f = some m) : s ≤ m ∧ m < f := by
  induction cells with
  | nil => cases h
  | cons c rest ih =>
      rw [searchPatternCells] at h
      cases hc : axisCellMatch pfx s f c with
      | some k =>
          rw [hc] at h
          cases h
          exact axisCellMatch_range pfx s f c m hc
      | none =>
          rw [hc] at h
          exact ih h

/-- Claim C5: axis extraction runs the whole `"AXIS"` pass over all
candidate columns first and returns its result whenever it finds one; the
`"S"` fallback pass over the same columns is consulted only when the
entire `"AXIS"` pass found nothing; and any extracted axis lies in the
configured range `[start, fin)`.  The hypothesis `1 ≤ start` reflects the
program's configured ranges (axis numbers 19–45): it rules out the falsy
axis number 0, for which `if mohor:` in the source would fall through to
the `"S"` pass. -/
theorem extract_from_row_axis_priority (cells : List (Option PyVal))
    (s f : Nat) (hs : 1 ≤ s) :
    (∀ m, searchPatternCells cells "AXIS" s f = some m →
        extract_from_row cells s f = some m)
    ∧ (searchPatternCells cells "AXIS" s f = none →
        extract_from_row cells s f = searchPatternCells cells "S" s f)
    ∧ (∀ m, extract_from_row cells s f = some m → s ≤ m ∧ m < f) := by
  refine ⟨?_, ?_, ?_⟩
  · intro m hm
    have hr := searchPatternCells_range cells "AXIS" s f m hm
    have hm0 : m ≠ 0 := by omega
    simp [extract_from_row, hm, hm0]
  · intro hn
    unfold extract_from_row
    rw [hn]
  · intro m hm
    unfold extract_from_row at hm
    cases ha : searchPatternCells cells "AXIS" s f with
    | some k =>
        rw [ha] at hm
        have hk := searchPatternCells_range cells "AXIS" s f k ha
        have hk0 : k ≠ 0 := by omega
        simp [hk0] at hm
        omega
    | none =>
        rw [ha] at hm
        exact searchPatternCells_range cells "S" s f m hm

/-- The candidate cells of the Claim C5 witness: the first column carries
an `"S19"` token, a later column carries an `"AXIS-20"` token. -/
def c5Cells : List (Option PyVal) :=
  [some (.strV "S19 bracket"), some (.strV "see AXIS-20")]

/-- Witness for Claim C5 at the configured range 19–45: even though an
`"S"`-form token for axis 19 appears in an earlier column, the result is
axis 20, found by the `"AXIS"` pass. -/
theorem extract_from_row_axis_priority_witness :
    extract_from_row c5Cells 19 46 = some 20 :=
  (extract_from_row_axis_priority c5Cells 19 46 (by decide)).1 20 (by decide)

/-!  Claims C6 and C7: the planner's outcomes. -/

/-- The same-axis candidate list of `_match_item` is empty exactly when no
location under the item's key has the item's axis name. -/
theorem candidates_empty_iff (d : List (String × List Location))
    (k nm : String) :
    ((lookupLocs d k).filter (fun loc => loc.mohor == nm)).isEmpty = true ↔
      ∀ l ∈ lookupLocs d k, l.mohor ≠ nm := by
  rw [List.isEmpty_iff, List.filter_eq_nil_iff]
  constructor
  · intro h l hl hmo
    exact h l hl (by simp [hmo])
  · intro h l hl hmo
    exact h l hl (by simpa using hmo)

/-- Claim C6: for every source item, `_match_item` yields exactly one of
three outcomes.  (A) When at least one indexed location for the item's
normalized key carries the item's axis name, the outcome is Existing, whose
`existing_rows` are the same-axis candidates' row indices in index order,
with the deficit warning attached exactly when the candidate count is below
the needed quantity.  (B) Otherwise, when the axis's section has a last
target-level leaf, the outcome is New anchored there, carrying the Existing
field values (`a/e/n`) plus the extra `g_value` taken from the auxiliary
value.  (C) Otherwise the outcome is Unresolvable with the fixed reason.
(D) A same-key location under a different axis name never yields Existing:
any Existing outcome implies a same-axis location exists. -/
theorem matchItem_trichotomy (hc : HierarchyConfig) (ws : List PMSRow)
    (mohorName : String) (mohorNum : Nat) (pnt : ItemData)
    (itemLocations : List (String × List Location)) (g2 : String) :
    ((∃ l ∈ lookupLocs itemLocations pnt.normalized, l.mohor = mohorName) →
        matchItem hc ws mohorName mohorNum pnt itemLocations g2 =
          .existing
            { mohor := mohorName
              item_text := pnt.single_line
              existing_rows :=
                ((lookupLocs itemLocations pnt.normalized).filter
                  (fun loc => loc.mohor == mohorName)).map Location.row
              needed_quantity := pnt.quantity
              a_value := pnt.single_line
              e_value := g2
              n_value := pnt.m_value
              g_value := none
              is_new_item := false }
            (if (((lookupLocs itemLocations pnt.normalized).filter
                  (fun loc => loc.mohor == mohorName)).length : Int) <
                pnt.quantity then
              some ⟨pnt.single_line, mohorName, pnt.quantity,
                ((lookupLocs itemLocations pnt.normalized).filter
                  (fun loc => loc.mohor == mohorName)).length,
                pnt.quantity -
                  (((lookupLocs itemLocations pnt.normalized).filter
                    (fun loc => loc.mohor == mohorName)).length : Int)⟩
            else none))
    ∧ ((∀ l ∈ lookupLocs itemLocations pnt.normalized, l.mohor ≠ mohorName) →
        ∀ r, find_last_level5_in_section hc ws mohorNum = some r →
          matchItem hc ws mohorName mohorNum pnt itemLocations g2 =
            .newItem
              { mohor := mohorName
                item_text := "🆕 " ++ pnt.single_line
                existing_rows := [r]
                needed_quantity := pnt.quantity
                a_value := pnt.single_line
                e_value := g2
                n_value := pnt.m_value
                g_value := some pnt.m_value
                is_new_item := true })
    ∧ ((∀ l ∈ lookupLocs itemLocations pnt.normalized, l.mohor ≠ mohorName) →
        find_last_level5_in_section hc ws mohorNum = none →
          matchItem hc ws mohorName mohorNum pnt itemLocations g2 =
            .notFound ⟨pnt.single_line, mohorName, notFoundReason⟩)
    ∧ (∀ u w,
        matchItem hc ws mohorName mohorNum pnt itemLocations g2 =
          .existing u w →
        ∃ l ∈ lookupLocs itemLocations pnt.normalized, l.mohor = mohorName) := by
  refine ⟨?_, ?_, ?_, ?_⟩
  · intro hex
    have hne : ((lookupLocs itemLocations pnt.normalized).filter
        (fun loc => loc.mohor == mohorName)).isEmpty = false := by
      cases he : ((lookupLocs itemLocations pnt.normalized).filter
          (fun loc => loc.mohor == mohorName)).isEmpty
      · rfl
      · obtain ⟨l, hl, hlm⟩ := hex
        exact absurd hlm
          (((candidates_empty_iff itemLocations pnt.normalized mohorName).mp
            he) l hl)
    unfold matchItem
    rw [if_neg (by rw [hne]; exact Bool.false_ne_true)]
    unfold createExistingUpdate
    by_cases hd : ((((lookupLocs itemLocations pnt.normalized).filter
        (fun loc => loc.mohor == mohorName)).length : Int) < pnt.quantity)
    · rw [if_pos hd, if_pos hd]
    · rw [if_neg hd, if_neg hd]
  · intro hno r hr
    have he : ((lookupLocs itemLocations pnt.normalized).filter
        (fun loc => loc.mohor == mohorName)).isEmpty = true :=
      (candidates_empty_iff itemLocations pnt.normalized mohorName).mpr hno
    have hr1 : 1 ≤ r := find_last_level5_pos hc ws mohorNum r hr
    unfold matchItem
    rw [if_pos he]
    unfold createNewUpdate
    rw [hr]
    have hr0 : ¬ r = 0 := by omega
    simp [hr0]
  · intro hno hr
    have he : ((lookupLocs itemLocations pnt.normalized).filter
        (fun loc => loc.mohor == mohorName)).isEmpty = true :=
      (candidates_empty_iff itemLocations pnt.normalized mohorName).mpr hno
    unfold matchItem
    rw [if_pos he]
    unfold createNewUpdate
    rw [hr]
  · intro u w hmr
    by_contra hno
    push_neg at hno
    have he : ((lookupLocs itemLocations pnt.normalized).filter
        (fun loc => loc.mohor == mohorName)).isEmpty = true :=
      (candidates_empty_iff itemLocations pnt.normalized mohorName).mpr hno
    unfold matchItem at hmr
    rw [if_pos he] at hmr
    unfold createNewUpdate at hmr
    cases hfl : find_last_level5_in_section hc ws mohorNum with
    | some r =>
        rw [hfl] at hmr
        by_cases hr0 : r = 0
        · simp [hr0] at hmr
        · simp [hr0] at hmr
    | none =>
        rw [hfl] at hmr
        simp at hmr

/-- A two-location structure index for the planner witnesses: the key
`"primercoat"` is present under axis 19 (row 40) and axis 20 (row 44). -/
def c6Locs : List (String × List Location) :=
  [("primercoat",
    [⟨"محور 19", 40, 5, "Primer Coat"⟩, ⟨"محور 20", 44, 5, "Primer Coat"⟩])]

/-- The source item used by the planner witnesses: axis 19, quantity 2. -/
def c6Pnt : ItemData :=
  ⟨7, 2, some (.strV "m"), "Primer Coat", "Primer Coat", "primercoat", some 19⟩

/-- A hierarchy configuration for the planner witnesses. -/
def c6Hc : HierarchyConfig := ⟨"محور", "GLASS FLAKE", "blast", 5⟩

/-- Witness for Claim C6 (Existing branch) at a concrete input: only the
axis-19 location survives the same-axis filter, so `target_rows = [40]` and
the needed quantity 2 exceeds the one available row, attaching the deficit
warning; the axis-20 location with the same key does not produce an
Existing row. -/
theorem matchItem_trichotomy_witness :
    matchItem c6Hc [] "محور 19" 19 c6Pnt c6Locs "g2" =
      MatchResult.existing
        ⟨"محور 19", "Primer Coat", [40], 2, "Primer Coat", "g2",
          some (PyVal.strV "m"), none, false⟩
        (some ⟨"Primer Coat", "محور 19", 2, 1, 1⟩) :=
  ((matchItem_trichotomy c6Hc [] "محور 19" 19 c6Pnt c6Locs "g2").1
    (by decide)).trans (by decide)

/-- Claim C7: for every Existing outcome, the deficit warning is emitted
exactly when fewer target rows exist than the needed quantity, it records
`needed`, `available` and `deficit = max(0, needed - available)`, and the
Existing update itself — with its full field values — is the same whether
or not the warning is emitted. -/
theorem createExistingUpdate_deficit (mohorName : String) (pnt : ItemData)
    (locs : List Location) (g2 : String) :
    ((createExistingUpdate mohorName pnt locs g2).2.isSome = true ↔
        (locs.length : Int) < pnt.quantity)
    ∧ (∀ w, (createExistingUpdate mohorName pnt locs g2).2 = some w →
        w.needed = pnt.quantity ∧ w.available = locs.length ∧
          w.deficit = max 0 (pnt.quantity - (locs.length : Int)))
    ∧ (createExistingUpdate mohorName pnt locs g2).1 =
        ⟨mohorName, pnt.single_line, locs.map Location.row, pnt.quantity,
          pnt.single_line, g2, pnt.m_value, none, false⟩ := by
  by_cases h : (locs.length : Int) < pnt.quantity
  · refine ⟨by simp [createExistingUpdate, h], ?_, by simp [createExistingUpdate, h]⟩
    intro w hw
    simp only [createExistingUpdate, if_pos h, Option.some.injEq] at hw
    subst hw
    refine ⟨rfl, rfl, ?_⟩
    show pnt.quantity - (locs.length : Int) = _
    omega
  · refine ⟨by simp [createExistingUpdate, h], ?_, by simp [createExistingUpdate, h]⟩
    intro w hw
    simp [createExistingUpdate, if_neg h] at hw

/-- Witness for Claim C7 at the spec's example: needed quantity 3 against
target rows `[5, 9]` — the warning is emitted (deficit 1). -/
theorem createExistingUpdate_deficit_witness :
    ((createExistingUpdate "محور 19"
        ⟨7, 3, none, "Primer Coat", "Primer Coat", "primercoat", some 19⟩
        [⟨"محور 19", 5, 5, "Primer Coat"⟩, ⟨"محور 19", 9, 5, "Primer Coat"⟩]
        "g2").2.isSome = true) :=
  (createExistingUpdate_deficit "محور 19"
    ⟨7, 3, none, "Primer Coat", "Primer Coat", "primercoat", some 19⟩
    [⟨"محور 19", 5, 5, "Primer Coat"⟩, ⟨"محور 19", 9, 5, "Primer Coat"⟩]
    "g2").1.mpr (by decide)

/-!  Claim C10: `is_new_item` and `g_value` across the update plan. -/

/-- The Existing update entry does not depend on whether the deficit branch
was taken. -/
theorem createExistingUpdate_fst (mohorName : String) (pnt : ItemData)
    (locs : List Location) (g2 : String) :
    (createExistingUpdate mohorName pnt locs g2).1 =
      ⟨mohorName, pnt.single_line, locs.map Location.row, pnt.quantity,
        pnt.single_line, g2, pnt.m_value, none, false⟩ := by
  unfold createExistingUpdate
  by_cases h : (locs.length : Int) < pnt.quantity
  · rw [if_pos h]
  · rw [if_neg h]

/-- Every `_match_item` outcome keeps the pairing of `is_new_item` with the
presence of `g_value`: Existing entries carry `is_new_item = false` and no
`g_value`; New entries carry `is_new_item = true` and
`g_value = m_value`. -/
theorem matchItem_entry_invariant (hc : HierarchyConfig) (ws : List PMSRow)
    (mohorName : String) (mohorNum : Nat) (pnt : ItemData)
    (itemLocations : List (String × List Location)) (g2 : String) :
    (∀ u w, matchItem hc ws mohorName mohorNum pnt itemLocations g2 =
        .existing u w → u.is_new_item = false ∧ u.g_value = none)
    ∧ (∀ u, matchItem hc ws mohorName mohorNum pnt itemLocations g2 =
        .newItem u →
        u.is_new_item = true ∧ u.g_value = some pnt.m_value) := by
  constructor
  · intro u w h
    unfold matchItem at h
    by_cases he : ((lookupLocs itemLocations pnt.normalized).filter
        (fun loc => loc.mohor == mohorName)).isEmpty = true
    · rw [if_pos he] at h
      unfold createNewUpdate at h
      cases hfl : find_last_level5_in_section hc ws mohorNum with
      | some r =>
          rw [hfl] at h
          by_cases hr0 : r = 0
          · simp [hr0] at h
          · simp [hr0] at h
      | none => rw [hfl] at h; simp at h
    · rw [if_neg he] at h
      simp only [MatchResult.existing.injEq] at h
      rw [← h.1, createExistingUpdate_fst]
      exact ⟨rfl, rfl⟩
  · intro u h
    unfold matchItem at h
    by_cases he : ((lookupLocs itemLocations pnt.normalized).filter
        (fun loc => loc.mohor == mohorName)).isEmpty = true
    · rw [if_pos he] at h
      unfold createNewUpdate at h
      cases hfl : find_last_level5_in_section hc ws mohorNum with
      | some r =>
          rw [hfl] at h
          by_cases hr0 : r = 0
          · simp [hr0] at h
          · simp [hr0] at h
            rw [← h]
            exact ⟨rfl, rfl⟩
      | none => rw [hfl] at h; simp at h
    · rw [if_neg he] at h
      simp at h

/-- Every update entry emitted by the per-axis loop keeps the invariant. -/
theorem planItems_entry_invariant (hc : HierarchyConfig) (ws : List PMSRow)
    (itemLocations : List (String × List Location)) (g2 : String)
    (mohorName : String) (mohorNum : Nat) (items : List ItemData) :
    ∀ u ∈ (planItems hc ws itemLocations g2 mohorName mohorNum items).1,
      (u.is_new_item = true ↔ u.g_value.isSome = true) := by
  induction items with
  | nil => intro u hu; cases hu
  | cons d rest ih =>
      intro u hu
      simp only [planItems] at hu
      cases hm : matchItem hc ws mohorName mohorNum d itemLocations g2 with
      | existing u0 w0 =>
          rw [hm] at hu
          rcases List.mem_cons.mp hu with hh | hh
          · obtain ⟨hf, hg⟩ :=
              (matchItem_entry_invariant hc ws mohorName mohorNum d
                itemLocations g2).1 u0 w0 hm
            rw [hh]
            simp [hf, hg]
          · exact ih u hh
      | newItem u0 =>
          rw [hm] at hu
          rcases List.mem_cons.mp hu with hh | hh
          · obtain ⟨hf, hg⟩ :=
              (matchItem_entry_invariant hc ws mohorName mohorNum d
                itemLocations g2).2 u0 hm
            rw [hh]
            simp [hf, hg]
          · exact ih u hh
      | notFound e =>
          rw [hm] at hu
          exact ih u hu

/-- Claim C10: every update-plan entry the planner emits pairs the
`is_new_item` flag with the presence of `g_value` — `is_new_item` is true
exactly when the entry carries a `g_value` (set from the item's auxiliary
value); Existing entries never carry one.  Hence `COMUpdater`'s
unconditional `update['g_value']` read on entries with `is_new_item` set
cannot fail, and existing entries are never read for `g_value`. -/
theorem planUpdates_is_new_iff_gvalue (hc : HierarchyConfig)
    (ws : List PMSRow) (itemLocations : List (String × List Location))
    (itemsByAxis : List (Nat × List ItemData)) (g2 : String) :
    ∀ u ∈ (planUpdates hc ws itemLocations itemsByAxis g2).1,
      (u.is_new_item = true ↔ u.g_value.isSome = true) := by
  induction itemsByAxis with
  | nil => intro u hu; cases hu
  | cons p rest ih =>
      obtain ⟨num, items⟩ := p
      intro u hu
      simp only [planUpdates] at hu
      rcases List.mem_append.mp hu with hh | hh
      · exact planItems_entry_invariant hc ws itemLocations g2
          ("محور " ++ toString num) num items u hh
      · exact ih u hh

/-- The first update entry of a one-item concrete planner run. -/
def c10Entry : UpdateEntry :=
  (planUpdates c6Hc [] c6Locs [(19, [c6Pnt])] "g2").1.getD 0
    ⟨"", "", [], 0, "", "", none, none, false⟩

/-- Witness for Claim C10: the invariant instantiated at the entry produced
by a concrete planner run. -/
theorem planUpdates_is_new_iff_gvalue_witness :
    (c10Entry.is_new_item = true ↔ c10Entry.g_value.isSome = true) :=
  planUpdates_is_new_iff_gvalue c6Hc [] c6Locs [(19, [c6Pnt])] "g2" c10Entry (by decide)

/-!  Claim C9: classification of source rows. -/

/-- The unidentified-list entry a source row contributes, if any: the row
must extract successfully to an item with no axis. -/
def unidOf (axStart axEnd : Nat) (p : Nat × PNTRow) : Option UnidEntry :=
  match extractRowData axStart axEnd p.1 p.2 with
  | .ok (some d) => if d.axis = none then some ⟨p.1, d.single_line⟩ else none
  | _ => none

/-- The item a source row contributes to axis group `a`, if any: the row
must extract successfully to an item with exactly that axis. -/
def groupOf (axStart axEnd a : Nat) (p : Nat × PNTRow) : Option ItemData :=
  match extractRowData axStart axEnd p.1 p.2 with
  | .ok (some d) => if d.axis = some a then some d else none
  | _ => none

/-- Unfolding `groupItems` over a cons cell. -/
theorem groupItems_cons (b : Nat) (l : List ItemData)
    (rest : List (Nat × List ItemData)) (a : Nat) :
    groupItems ((b, l) :: rest) a = if b = a then l else groupItems rest a := by
  by_cases h : b = a
  · simp [groupItems, List.find?_cons, h]
  · simp [groupItems, List.find?_cons, h]

/-- Appending an item to its axis group changes exactly that group. -/
theorem groupItems_addToGroup (groups : List (Nat × List ItemData))
    (axis : Nat) (d : ItemData) (a : Nat) :
    groupItems (addToGroup groups axis d) a =
      if a = axis then groupItems groups a ++ [d] else groupItems groups a := by
  induction groups with
  | nil =>
      by_cases h : a = axis
      · simp [addToGroup, groupItems, List.find?_cons, h]
      · have h2 : axis ≠ a := fun hh => h hh.symm
        simp [addToGroup, groupItems, List.find?_cons, h, h2]
  | cons q rest ih =>
      obtain ⟨b, l⟩ := q
      by_cases hb : b = axis
      · subst hb
        rw [addToGroup]
        rw [if_pos rfl]
        by_cases ha : b = a
        · rw [groupItems_cons, if_pos ha, groupItems_cons, if_pos ha,
            if_pos ha.symm]
        · rw [groupItems_cons, if_neg ha, groupItems_cons, if_neg ha,
            if_neg (fun hh => ha hh.symm)]
      · rw [addToGroup, if_neg hb]
        by_cases ha : b = a
        · rw [groupItems_cons, if_pos ha, groupItems_cons, if_pos ha,
            if_neg (by rw [← ha]; exact hb)]
        · rw [groupItems_cons, if_neg ha, groupItems_cons, if_neg ha, ih]

/-- Closed form of the source-row classification loop: the final
unidentified list is the initial one followed by the contributions of the
scanned rows, and every axis group likewise. -/
theorem extractAllLoop_closed (axStart axEnd : Nat)
    (l : List (Nat × PNTRow)) (groups : List (Nat × List ItemData))
    (unid : List UnidEntry) (groups' : List (Nat × List ItemData))
    (unid' : List UnidEntry)
    (h : extractAllLoop axStart axEnd l groups unid = .ok (groups', unid')) :
    unid' = unid ++ l.filterMap (unidOf axStart axEnd)
    ∧ ∀ a, groupItems groups' a =
        groupItems groups a ++ l.filterMap (groupOf axStart axEnd a) := by
  induction l generalizing groups unid with
  | nil =>
      simp only [extractAllLoop, Except.ok.injEq, Prod.mk.injEq] at h
      obtain ⟨h1, h2⟩ := h
      subst h1
      subst h2
      simp
  | cons p rest ih =>
      obtain ⟨i, r⟩ := p
      rw [extractAllLoop] at h
      cases he : extractRowData axStart axEnd i r with
      | error e => rw [he] at h; simp at h
      | ok od =>
          rw [he] at h
          cases od with
          | none =>
              obtain ⟨h1, h2⟩ := ih groups unid h
              constructor
              · rw [h1]
                congr 1
                rw [List.filterMap_cons]
                simp [unidOf, he]
              · intro a
                rw [h2 a]
                congr 1
                rw [List.filterMap_cons]
                simp [groupOf, he]
          | some d =>
              have hm : (match d.axis with
                  | none => extractAllLoop axStart axEnd rest groups
                      (unid ++ [({ row := i, item := d.single_line } : UnidEntry)])
                  | some a => extractAllLoop axStart axEnd rest
                      (addToGroup groups a d) unid) =
                  Except.ok (groups', unid') := h
              cases hax : d.axis with
              | none =>
                  rw [hax] at hm
                  obtain ⟨h1, h2⟩ := ih groups (unid ++ [⟨i, d.single_line⟩]) hm
                  constructor
                  · rw [h1, List.append_assoc]
                    congr 1
                    rw [List.filterMap_cons]
                    simp [unidOf, he, hax]
                  · intro a
                    rw [h2 a]
                    congr 1
                    rw [List.filterMap_cons]
                    simp [groupOf, he, hax]
              | some b =>
                  rw [hax] at hm
                  obtain ⟨h1, h2⟩ := ih (addToGroup groups b d) unid hm
                  constructor
                  · rw [h1]
                    congr 1
                    rw [List.filterMap_cons]
                    simp [unidOf, he, hax]
                  · intro a
                    rw [h2 a, groupItems_addToGroup]
                    by_cases hab : a = b
                    · rw [if_pos hab, List.append_assoc]
                      congr 1
                      rw [List.filterMap_cons]
                      simp [groupOf, he, hax, hab]
                    · rw [if_neg hab]
                      congr 1
                      rw [List.filterMap_cons]
                      have hab2 : b ≠ a := fun hh => hab hh.symm
                      simp [groupOf, he, hax, hab2]

/-- Claim C9 (amended): when source extraction completes without raising,
the unidentified list consists of exactly one entry per scanned row that
extracts to an item with no resolvable axis (in row order), and every axis
group holds exactly the extracted items whose axis is that group's axis (in
row order).  Since each enumerated row contributes at most one entry in
total — to the unidentified list when `axis = none`, to its own axis's
group when `axis = some a`, to nothing when skipped — the two collections
partition the classified rows and an unidentified row never appears in any
group.  (Rows whose item text is truthy but whitespace-only normalize to
the empty key and are silently dropped, appearing in neither collection —
see the counterexample; and a raising quantity read aborts the extraction
wholesale.) -/
theorem extractAllItems_partition (axStart axEnd rowStart : Nat)
    (rows : List PNTRow) (groups : List (Nat × List ItemData))
    (unid : List UnidEntry)
    (h : extractAllItems axStart axEnd rowStart rows = .ok (groups, unid)) :
    unid = (enumFrom rowStart rows).filterMap (unidOf axStart axEnd)
    ∧ ∀ a, groupItems groups a =
        (enumFrom rowStart rows).filterMap (groupOf axStart axEnd a) := by
  obtain ⟨h1, h2⟩ := extractAllLoop_closed axStart axEnd _ [] [] groups unid h
  refine ⟨by simpa using h1, fun a => ?_⟩
  have hz : groupItems [] a = [] := rfl
  simpa [hz] using h2 a

/-- A source row whose item text is the non-empty string `" "`: it is
truthy, has no axis, and its normalized key is empty. -/
def c9BlankRow : PNTRow := ⟨some (.strV " "), [], none, none⟩

/-- Claim C9 counterexample: the claim says every source row with
non-empty item text and no resolvable axis appears exactly once in the
unidentified list; the row `c9BlankRow` has the non-empty item text `" "`
and no resolvable axis, yet the extraction classifies it nowhere — both the
axis groups and the unidentified list come back empty, because the code
drops rows whose normalized text is empty before the axis check is ever
used for classification. -/
theorem extractAllItems_whitespace_refutes :
    extractAllItems 19 46 7 [c9BlankRow] = Except.ok ([], [])
    ∧ c9BlankRow.item = some (PyVal.strV " ")
    ∧ extract_from_row c9BlankRow.axisCells 19 46 = none :=
  ⟨rfl, rfl, rfl⟩

/-- The two-row source sheet of the Claim C9 witness: row 7 carries an
`AXIS19` marker, row 8 has no axis marker. -/
def c9Rows : List PNTRow :=
  [⟨some (.strV "Valve"), [some (.strV "AXIS19")], some (.intV 2), none⟩,
   ⟨some (.strV "Widget"), [some (.strV "no axis here")], none, none⟩]

/-- The axis groups produced from `c9Rows`. -/
def c9Groups : List (Nat × List ItemData) :=
  [(19, [⟨7, 2, none, "Valve", "Valve", "valve", some 19⟩])]

/-- Witness for the amended Claim C9 at a concrete extraction run: row 8
(no axis) is exactly the unidentified list. -/
theorem extractAllItems_partition_witness :
    ([⟨8, "Widget"⟩] : List UnidEntry) =
      (enumFrom 7 c9Rows).filterMap (unidOf 19 46) :=
  (extractAllItems_partition 19 46 7 c9Rows c9Groups [⟨8, "Widget"⟩] rfl).1
